import Mathlib

/-!
Verification of the avatar-generation web application.

The development shallow-embeds the client image utilities
(`src/lib/client/imageUtils.ts`), the image display component
(`src/components/avatar/AvatarImage.tsx`, shipped inside
`src/server/api/root.ts` in this snapshot), and the two server
procedures (`generateAvatarImage.ts`, `generateAvatarDescription.ts`).

The code calls the platform's WHATWG `URL` constructor; that parser is
not part of the repository, so a simplified model of it is defined
here (`parseURL`): absolute URLs only, scheme and host lowercased,
no userinfo/port support, no percent-encoding or dot-segment
normalization of paths.  Everything after the host (path, query,
fragment) is kept as one raw suffix.  The model keeps the two
behaviors the repository's logic depends on: parse failure on
malformed strings, and the scheme/host split of well-formed ones.
-/

set_option linter.unnecessarySeqFocus false

namespace Avatar

/-! ## List helper lemmas -/

theorem takeWhile_append_of_all {p : Char → Bool} :
    ∀ (l r : List Char), l.all p = true → (l ++ r).takeWhile p = l ++ r.takeWhile p := by
  intro l r h
  induction l with
  | nil => simp
  | cons c t ih =>
    simp only [List.all_cons, Bool.and_eq_true] at h
    simp only [List.cons_append, List.takeWhile_cons, h.1, if_true, ih h.2]

theorem dropWhile_append_of_all {p : Char → Bool} :
    ∀ (l r : List Char), l.all p = true → (l ++ r).dropWhile p = r.dropWhile p := by
  intro l r h
  induction l with
  | nil => simp
  | cons c t ih =>
    simp only [List.all_cons, Bool.and_eq_true] at h
    simp only [List.cons_append, List.dropWhile_cons, h.1, if_true, ih h.2]

/-! ## Model of the WHATWG URL platform primitive -/

/-- Characters allowed inside a URL scheme after the first letter. -/
def isSchemeChar (c : Char) : Bool :=
  c.isAlpha || c.isDigit || c == '+' || c == '-' || c == '.'

/-- Characters that terminate the host portion of an authority. -/
def isHostDelim (c : Char) : Bool :=
  c == '/' || c == '?' || c == '#'

/-- Characters the model rejects inside a host (userinfo and ports are
not supported by the model). -/
def isHostForbidden (c : Char) : Bool :=
  c == ':' || c == '@' || c == ' ' || c == '\\'

/-- The WHATWG special schemes. -/
def specialSchemes : List (List Char) :=
  ["ftp".data, "file".data, "http".data, "https".data, "ws".data, "wss".data]

def isSpecialScheme (s : List Char) : Bool :=
  specialSchemes.contains s

/-- A canonical (already lowercased) well-formed scheme. -/
def schemeOk (s : List Char) : Bool :=
  (match s with
   | [] => false
   | c :: r => c.isAlpha && r.all isSchemeChar) &&
  decide (s.map Char.toLower = s)

/-- A canonical (already lowercased) well-formed host. -/
def hostOk (h : List Char) : Bool :=
  h.all (fun c => !isHostDelim c && !isHostForbidden c) &&
  decide (h.map Char.toLower = h)

/-- A parsed URL: either authority-based (`scheme://host` followed by a
raw path/query/fragment suffix) or opaque (`scheme:rest`). -/
inductive URLRec where
  | hostUrl (scheme host suffix : List Char)
  | opaqueUrl (scheme rest : List Char)
deriving DecidableEq

/-- Split `scheme ':' rest`; fails when no well-formed scheme prefix exists. -/
def splitScheme (cs : List Char) : Option (List Char × List Char) :=
  match cs with
  | [] => none
  | c :: rest =>
    if c.isAlpha then
      match rest.dropWhile isSchemeChar with
      | x :: after => if x == ':' then some (c :: rest.takeWhile isSchemeChar, after) else none
      | [] => none
    else none

def startsWithSlashes : List Char → Bool
  | '/' :: '/' :: _ => true
  | _ => false

/-- Head of a path/query/fragment suffix must be a delimiter (or the
suffix is empty). -/
def headIsDelim : List Char → Bool
  | [] => true
  | c :: _ => isHostDelim c

/-- Host portion of the authority `tail` (lowercased, as the platform does). -/
def hostOf (tail : List Char) : List Char :=
  (tail.takeWhile (fun c => !isHostDelim c)).map Char.toLower

/-- Raw path/query/fragment suffix after the host. -/
def suffixOf (tail : List Char) : List Char :=
  tail.dropWhile (fun c => !isHostDelim c)

/-- Parse the part after `scheme ':'`.  Special schemes require an
authority with a non-empty host and default the path to `/`. -/
def parseAfterScheme (scheme rest : List Char) : Option URLRec :=
  if startsWithSlashes rest then
    if hostOk (hostOf (rest.drop 2)) then
      if isSpecialScheme scheme then
        if hostOf (rest.drop 2) = [] then none
        else some (.hostUrl scheme (hostOf (rest.drop 2))
          (if suffixOf (rest.drop 2) = [] then ['/'] else suffixOf (rest.drop 2)))
      else some (.hostUrl scheme (hostOf (rest.drop 2)) (suffixOf (rest.drop 2)))
    else none
  else
    if isSpecialScheme scheme then none
    else some (.opaqueUrl scheme rest)

/-- Model of `new URL(s)`: `none` models the constructor throwing. -/
def parseURL (cs : List Char) : Option URLRec :=
  match splitScheme cs with
  | none => none
  | some (rawScheme, rest) =>
    if schemeOk (rawScheme.map Char.toLower) then
      parseAfterScheme (rawScheme.map Char.toLower) rest
    else none

/-- Serializer (`URL.toString()` / `href`). -/
def URLRec.serializeL : URLRec → List Char
  | .hostUrl scheme host suffix => scheme ++ ':' :: '/' :: '/' :: (host ++ suffix)
  | .opaqueUrl scheme rest => scheme ++ ':' :: rest

def URLRec.serialize (r : URLRec) : String := ⟨r.serializeL⟩

def URLRec.schemeL : URLRec → List Char
  | .hostUrl s _ _ => s
  | .opaqueUrl s _ => s

/-- `url.protocol`: the scheme followed by a colon. -/
def URLRec.protocol (r : URLRec) : String := ⟨r.schemeL ++ [':']⟩

/-- `url.hostname`: empty for opaque URLs, as in the platform. -/
def URLRec.hostname : URLRec → String
  | .hostUrl _ h _ => ⟨h⟩
  | .opaqueUrl _ _ => ""

/-- Records producible by `parseURL` (exactly what the serializer
round-trip needs). -/
def URLRec.WF : URLRec → Prop
  | .hostUrl scheme host suffix =>
      schemeOk scheme = true ∧ hostOk host = true ∧
      (isSpecialScheme scheme = true → host ≠ [] ∧ suffix ≠ []) ∧
      headIsDelim suffix = true
  | .opaqueUrl scheme rest =>
      schemeOk scheme = true ∧ isSpecialScheme scheme = false ∧
      startsWithSlashes rest = false

/-- Model of the `url.protocol = 'https:'` setter: per the WHATWG
protocol-setter rules the switch only happens between special schemes
(`https` is special), so a non-special scheme is left unchanged. -/
def setProtocolHttps : URLRec → URLRec
  | .hostUrl scheme host suffix =>
      if isSpecialScheme scheme then .hostUrl "https".data host suffix
      else .hostUrl scheme host suffix
  | .opaqueUrl scheme rest => .opaqueUrl scheme rest

/-! ## Round-trip lemmas for the URL model -/

theorem schemeOk_parts {s : List Char} (h : schemeOk s = true) :
    ∃ c r, s = c :: r ∧ c.isAlpha = true ∧ r.all isSchemeChar = true := by
  cases s with
  | nil => simp [schemeOk] at h
  | cons c r =>
    simp only [schemeOk, Bool.and_eq_true, decide_eq_true_eq] at h
    exact ⟨c, r, rfl, h.1.1, h.1.2⟩

theorem schemeOk_map_toLower {s : List Char} (h : schemeOk s = true) :
    s.map Char.toLower = s := by
  cases s with
  | nil => rfl
  | cons c r =>
    simp only [schemeOk, Bool.and_eq_true, decide_eq_true_eq] at h
    exact h.2

theorem schemeOk_ne_nil {s : List Char} (h : schemeOk s = true) : s ≠ [] := by
  obtain ⟨c, r, rfl, -, -⟩ := schemeOk_parts h
  simp

theorem hostOk_all_not_delim {h : List Char} (hh : hostOk h = true) :
    h.all (fun c => !isHostDelim c) = true := by
  simp only [hostOk, Bool.and_eq_true, decide_eq_true_eq, List.all_eq_true] at hh ⊢
  intro c hc
  have hcc := hh.1 c hc
  simp only [Bool.and_eq_true] at hcc
  exact hcc.1

theorem hostOk_map_toLower {h : List Char} (hh : hostOk h = true) :
    h.map Char.toLower = h := by
  simp only [hostOk, Bool.and_eq_true, decide_eq_true_eq] at hh
  exact hh.2

theorem takeWhile_eq_nil_of_headIsDelim {l : List Char} (h : headIsDelim l = true) :
    l.takeWhile (fun c => !isHostDelim c) = [] := by
  cases l with
  | nil => rfl
  | cons c t =>
    simp only [headIsDelim] at h
    simp [List.takeWhile_cons, h]

theorem dropWhile_eq_self_of_headIsDelim {l : List Char} (h : headIsDelim l = true) :
    l.dropWhile (fun c => !isHostDelim c) = l := by
  cases l with
  | nil => rfl
  | cons c t =>
    simp only [headIsDelim] at h
    simp [List.dropWhile_cons, h]

theorem headIsDelim_suffixOf (l : List Char) : headIsDelim (suffixOf l) = true := by
  induction l with
  | nil => rfl
  | cons c t ih =>
    unfold suffixOf at ih ⊢
    rw [List.dropWhile_cons]
    cases hc : isHostDelim c with
    | true => simp [headIsDelim, hc]
    | false => simpa [hc] using ih

theorem hostOf_append {host suffix : List Char} (hh : hostOk host = true)
    (hd : headIsDelim suffix = true) : hostOf (host ++ suffix) = host := by
  unfold hostOf
  rw [takeWhile_append_of_all host suffix (hostOk_all_not_delim hh),
    takeWhile_eq_nil_of_headIsDelim hd, List.append_nil, hostOk_map_toLower hh]

theorem suffixOf_append {host suffix : List Char} (hh : hostOk host = true)
    (hd : headIsDelim suffix = true) : suffixOf (host ++ suffix) = suffix := by
  unfold suffixOf
  rw [dropWhile_append_of_all host suffix (hostOk_all_not_delim hh),
    dropWhile_eq_self_of_headIsDelim hd]

theorem splitScheme_canonical (scheme rest : List Char) (h : schemeOk scheme = true) :
    splitScheme (scheme ++ ':' :: rest) = some (scheme, rest) := by
  obtain ⟨c, r, rfl, hc, hr⟩ := schemeOk_parts h
  have hcolon : isSchemeChar ':' = false := by decide
  simp only [List.cons_append, splitScheme, hc, if_true]
  rw [dropWhile_append_of_all r (':' :: rest) hr,
    takeWhile_append_of_all r (':' :: rest) hr,
    List.dropWhile_cons, List.takeWhile_cons, hcolon]
  simp

theorem parseAfterScheme_host (scheme host suffix : List Char)
    (hh : hostOk host = true)
    (hspec : isSpecialScheme scheme = true → host ≠ [] ∧ suffix ≠ [])
    (hd : headIsDelim suffix = true) :
    parseAfterScheme scheme ('/' :: '/' :: (host ++ suffix)) =
      some (.hostUrl scheme host suffix) := by
  have hdrop : (('/' : Char) :: '/' :: (host ++ suffix)).drop 2 = host ++ suffix := rfl
  have hsl : startsWithSlashes ('/' :: '/' :: (host ++ suffix)) = true := rfl
  unfold parseAfterScheme
  rw [hdrop, hostOf_append hh hd, suffixOf_append hh hd, hsl, hh]
  cases hsp : isSpecialScheme scheme with
  | true =>
    obtain ⟨hne, hsufne⟩ := hspec hsp
    simp [hne, hsufne]
  | false => simp

theorem parse_serialize {r : URLRec} (h : r.WF) : parseURL r.serializeL = some r := by
  cases r with
  | hostUrl scheme host suffix =>
    obtain ⟨hs, hh, hspec, hd⟩ := h
    show parseURL (scheme ++ ':' :: '/' :: '/' :: (host ++ suffix)) = _
    unfold parseURL
    rw [splitScheme_canonical scheme _ hs]
    simp only [schemeOk_map_toLower hs, hs, if_true]
    exact parseAfterScheme_host scheme host suffix hh hspec hd
  | opaqueUrl scheme rest =>
    obtain ⟨hs, hnsp, hnsl⟩ := h
    show parseURL (scheme ++ ':' :: rest) = _
    unfold parseURL
    rw [splitScheme_canonical scheme rest hs]
    simp only [schemeOk_map_toLower hs, hs, if_true]
    unfold parseAfterScheme
    rw [hnsl]
    simp [hnsp]

theorem parseAfterScheme_wf {scheme rest : List Char} {r : URLRec}
    (hs : schemeOk scheme = true) (h : parseAfterScheme scheme rest = some r) :
    r.WF := by
  unfold parseAfterScheme at h
  cases hsl : startsWithSlashes rest with
  | false =>
    rw [hsl] at h
    simp only [Bool.false_eq_true, if_false] at h
    cases hsp : isSpecialScheme scheme with
    | true => rw [hsp] at h; simp at h
    | false =>
      rw [hsp] at h
      simp only [Bool.false_eq_true, if_false, Option.some.injEq] at h
      subst h
      exact ⟨hs, hsp, hsl⟩
  | true =>
    rw [hsl] at h
    simp only [if_true] at h
    cases hh : hostOk (hostOf (rest.drop 2)) with
    | false => rw [hh] at h; simp at h
    | true =>
      rw [hh] at h
      simp only [if_true] at h
      cases hsp : isSpecialScheme scheme with
      | true =>
        rw [hsp] at h
        simp only [if_true] at h
        cases hne : decide (hostOf (rest.drop 2) = []) with
        | true => simp only [decide_eq_true_eq] at hne; rw [if_pos hne] at h; simp at h
        | false =>
          simp only [decide_eq_false_iff_not] at hne
          rw [if_neg hne] at h
          simp only [Option.some.injEq] at h
          subst h
          refine ⟨hs, hh, fun _ => ⟨hne, ?_⟩, ?_⟩
          · split
            · simp
            · assumption
          · split
            · rfl
            · exact headIsDelim_suffixOf _
      | false =>
        rw [hsp] at h
        simp only [Bool.false_eq_true, if_false, Option.some.injEq] at h
        subst h
        refine ⟨hs, hh, ?_, headIsDelim_suffixOf _⟩
        intro hc
        rw [hc] at hsp
        exact absurd hsp (by simp)

theorem parseURL_wf {cs : List Char} {r : URLRec} (h : parseURL cs = some r) :
    r.WF := by
  unfold parseURL at h
  split at h
  · exact absurd h (by simp)
  · split at h
    · next hok => exact parseAfterScheme_wf hok h
    · exact absurd h (by simp)

theorem setProtocolHttps_wf {r : URLRec} (h : r.WF) : (setProtocolHttps r).WF := by
  cases r with
  | hostUrl scheme host suffix =>
    obtain ⟨hs, hh, hspec, hd⟩ := h
    cases hsp : isSpecialScheme scheme with
    | true =>
      have hgoal : setProtocolHttps (.hostUrl scheme host suffix) =
          .hostUrl "https".data host suffix := by
        simp [setProtocolHttps, hsp]
      rw [hgoal]
      have hhttps : schemeOk "https".data = true := by decide
      exact ⟨hhttps, hh, fun _ => hspec hsp, hd⟩
    | false =>
      have hgoal : setProtocolHttps (.hostUrl scheme host suffix) =
          .hostUrl scheme host suffix := by
        simp [setProtocolHttps, hsp]
      rw [hgoal]
      exact ⟨hs, hh, hspec, hd⟩
  | opaqueUrl scheme rest => exact h

theorem setProtocolHttps_idem (r : URLRec) :
    setProtocolHttps (setProtocolHttps r) = setProtocolHttps r := by
  cases r with
  | hostUrl scheme host suffix =>
    cases hsp : isSpecialScheme scheme with
    | true => simp [setProtocolHttps, hsp]
    | false => simp [setProtocolHttps, hsp]
  | opaqueUrl scheme rest => rfl

theorem serializeL_ne_nil {r : URLRec} (h : r.WF) : r.serializeL ≠ [] := by
  cases r with
  | hostUrl scheme host suffix =>
    obtain ⟨hs, -, -, -⟩ := h
    obtain ⟨c, cr, rfl, -, -⟩ := schemeOk_parts hs
    simp [URLRec.serializeL]
  | opaqueUrl scheme rest =>
    obtain ⟨hs, -, -⟩ := h
    obtain ⟨c, cr, rfl, -, -⟩ := schemeOk_parts hs
    simp [URLRec.serializeL]

theorem string_mk_eq_empty_iff (l : List Char) : (⟨l⟩ : String) = "" ↔ l = [] := by
  constructor
  · intro h
    have hd := congrArg String.data h
    simpa using hd
  · intro h
    subst h
    rfl

/-! ## src/lib/client/imageUtils.ts -/

/-- JavaScript `String.prototype.includes` (substring containment). -/
def containsSubL (needle : List Char) : List Char → Bool
  | [] => needle.isEmpty
  | c :: t => needle.isPrefixOf (c :: t) || containsSubL needle t

def stringIncludes (s sub : String) : Bool := containsSubL sub.data s.data

/-- The known expiring delivery domain checked throughout the code. -/
def replicateDomain : String := "replicate.delivery"

/-- `validateImageUrl` (imageUtils.ts:8-33).  `none` models a
`null`/`undefined` argument; the empty string is falsy in JS so the
`if (!url)` guard also catches it. -/
def validateImageUrl (url : Option String) : Bool :=
  match url with
  | none => false
  | some s =>
    if s = "" then false
    else
      match parseURL s.data with
      | none => false
      | some r =>
        if r.protocol ≠ "https:" then false
        else if !(stringIncludes r.hostname replicateDomain) then true
        else true

/-- `normalizeImageUrl` (imageUtils.ts:38-55): `null` for falsy input,
the original string when `new URL` throws, otherwise the re-serialized
URL after assigning `https:` to `protocol`. -/
def normalizeImageUrl (url : Option String) : Option String :=
  match url with
  | none => none
  | some s =>
    if s = "" then none
    else
      match parseURL s.data with
      | none => some s
      | some r => some (setProtocolHttps r).serialize

/-- `isLikelyTemporaryUrl` (imageUtils.ts:136-153). -/
def isLikelyTemporaryUrl (url : Option String) : Bool :=
  match url with
  | none => false
  | some s =>
    if s = "" then false
    else
      match parseURL s.data with
      | none => false
      | some r => if stringIncludes r.hostname replicateDomain then true else false

/-- The attempt loop of `loadImageWithRetry` (imageUtils.ts:97-131).
`outcome i` tells whether the i-th load attempt of the image resource
(0-based) fires `onload` (`true`) or `onerror` (`false`); `left` is the
number of retries still allowed (`maxRetries - retries` in the source,
so the source's `retries < maxRetries` test is `left > 0`).  Returns
(resolved?, total attempts made, backoff delays waited before each
retry). -/
def attemptLoad (outcome : Nat → Bool) (attempt delay : Nat) : Nat → Bool × Nat × List Nat
  | 0 => if outcome attempt then (true, attempt + 1, []) else (false, attempt + 1, [])
  | left + 1 =>
    if outcome attempt then (true, attempt + 1, [])
    else
      match attemptLoad outcome (attempt + 1) (delay * 2) left with
      | (b, a, ds) => (b, a, delay :: ds)

/-- `loadImageWithRetry(url, maxRetries, initialDelay)`: the url is
abstracted into the per-attempt `outcome` function of its resource. -/
def loadImageWithRetry (outcome : Nat → Bool) (maxRetries initialDelay : Nat) :
    Bool × Nat × List Nat :=
  attemptLoad outcome 0 initialDelay maxRetries

/-- The doubling backoff sequence starting at `initialDelay`. -/
def backoffDelays (initialDelay n : Nat) : List Nat :=
  (List.range n).map (fun i => initialDelay * 2 ^ i)

/-- Load-timeout duration chosen by `AvatarImage` (AvatarImage.tsx:
`isLikelyTemporaryUrl(normalized) ? 20000 : 15000`). -/
def timeoutDuration (normalized : String) : Nat :=
  if isLikelyTemporaryUrl (some normalized) then 20000 else 15000

/-! ## Idempotence machinery for normalizeImageUrl -/

theorem normalizeImageUrl_some_parse {s : String} {r : URLRec} (hempty : s ≠ "")
    (hp : parseURL s.data = some r) :
    normalizeImageUrl (some s) = some (setProtocolHttps r).serialize := by
  simp [normalizeImageUrl, hempty, hp]

theorem normalizeImageUrl_some_fail {s : String} (hempty : s ≠ "")
    (hp : parseURL s.data = none) : normalizeImageUrl (some s) = some s := by
  simp [normalizeImageUrl, hempty, hp]

/-! ## Server procedures: tRPC error model -/

inductive TRPCCode where
  | BAD_REQUEST
  | UNAUTHORIZED
  | FORBIDDEN
  | TOO_MANY_REQUESTS
  | TIMEOUT
  | INTERNAL_SERVER_ERROR
deriving DecidableEq

structure TRPCErr where
  code : TRPCCode
  message : String
deriving DecidableEq

def errCode {α : Type} : Except TRPCErr α → Option TRPCCode
  | .error e => some e.code
  | .ok _ => none

def errMessage {α : Type} : Except TRPCErr α → Option String
  | .error e => some e.message
  | .ok _ => none

/-- Untyped JSON/JS value, as far as the procedures inspect it. -/
inductive JSVal where
  | str (s : String)
  | arr (xs : List JSVal)
  | num (n : Int)
  | nullv
  | other

/-- A thrown JS `Error`, as far as the catch blocks inspect it:
`message`, an optional `code` property (`ECONNREFUSED`/`ENOTFOUND`),
and an optional `response.status`. -/
structure JsErr where
  message : String
  code : Option String
  respStatus : Option Nat
deriving DecidableEq

/-- What a catch block can receive: a rethrown `TRPCError` or a plain
JS error. -/
inductive Thrown where
  | trpc (e : TRPCErr)
  | js (e : JsErr)
deriving DecidableEq

def Thrown.message : Thrown → String
  | .trpc e => e.message
  | .js e => e.message

/-- `error.code` as read by the catch blocks: a `TRPCError`'s `code`
is its tRPC code string, never a Node network errno. -/
def Thrown.errnoIs (t : Thrown) (c : String) : Bool :=
  match t with
  | .trpc _ => false
  | .js e => e.code == some c

/-! ## generateAvatarImage (src/server/api/procedures/generateAvatarImage.ts) -/

def emptyOutputMsg : String := "Image generation succeeded but no output was returned"
def invalidUrlMsg : String := "Received invalid image URL from generation service"
def badUrlFormatMsg : String := "Generated image URL is not properly formatted"

/-- Lines 67-111: validation of the Replicate `output` value.  The
`Array.isArray(output) && output.length > 0` guard means `output[0]`
is only read from a non-empty array; `!imageUrl` makes the empty
string fail the string check (falsy); the hostname check only warns. -/
def handleReplicateOutput (output : JSVal) : Except TRPCErr String :=
  match output with
  | .arr (x :: _) =>
    match x with
    | .str s =>
      if s = "" then .error ⟨.INTERNAL_SERVER_ERROR, invalidUrlMsg⟩
      else
        match parseURL s.data with
        | none => .error ⟨.INTERNAL_SERVER_ERROR, badUrlFormatMsg⟩
        | some _ => .ok s
    | _ => .error ⟨.INTERNAL_SERVER_ERROR, invalidUrlMsg⟩
  | _ => .error ⟨.INTERNAL_SERVER_ERROR, emptyOutputMsg⟩

/-- How the `Promise.race` of the Replicate call can end. -/
inductive ImgOutcome where
  | output (v : JSVal)
  | raceRejected (e : JsErr)

def imgTimeoutMessage : String := "Replicate API call timed out after 60 seconds"
def imgTimeoutMs : Nat := 60000
def descTimeoutMs : Nat := 30000

/-- The try block (lines 11-111). -/
def imgTry (tokenConfigured : Bool) (o : ImgOutcome) : Except Thrown String :=
  if tokenConfigured = false then
    .error (.trpc ⟨.INTERNAL_SERVER_ERROR, "Image generation service is not properly configured"⟩)
  else
    match o with
    | .raceRejected e => .error (.js e)
    | .output v =>
      match handleReplicateOutput v with
      | .error e => .error (.trpc e)
      | .ok s => .ok s

/-- The catch block (lines 112-177), in source order: rethrow
`TRPCError`, then timeout, then network errno, then
`error.response.status` mapping, then the generic wrap. -/
def imgCatch : Thrown → TRPCErr
  | .trpc e => e
  | .js e =>
    if stringIncludes e.message "timed out" then
      ⟨.TIMEOUT, "Image generation timed out. Please try again later."⟩
    else if e.code = some "ECONNREFUSED" ∨ e.code = some "ENOTFOUND" ∨
        stringIncludes e.message "network" then
      ⟨.INTERNAL_SERVER_ERROR,
        "Could not connect to image generation service. Please check your internet connection and try again."⟩
    else
      match e.respStatus with
      | some status =>
        if status ≠ 0 then
          if status = 401 then
            ⟨.UNAUTHORIZED, "Failed to authenticate with image generation service. Please check your API credentials."⟩
          else if status = 402 then
            ⟨.FORBIDDEN, "Image generation service requires payment. Please check your account status."⟩
          else if status = 429 then
            ⟨.TOO_MANY_REQUESTS, "Image generation rate limit exceeded. Please try again in a few minutes."⟩
          else if 500 ≤ status then
            ⟨.INTERNAL_SERVER_ERROR, "Image generation service is currently experiencing issues. Please try again later."⟩
          else ⟨.INTERNAL_SERVER_ERROR, "Error during image generation: " ++ e.message⟩
        else ⟨.INTERNAL_SERVER_ERROR, "Error during image generation: " ++ e.message⟩
      | none => ⟨.INTERNAL_SERVER_ERROR, "Error during image generation: " ++ e.message⟩

def generateAvatarImage (tokenConfigured : Bool) (o : ImgOutcome) : Except TRPCErr String :=
  match imgTry tokenConfigured o with
  | .ok s => .ok s
  | .error t => .error (imgCatch t)

/-! ## generateAvatarDescription (src/server/api/procedures, unnamed part) -/

/-- How the description call can end: an HTTP response (with the text
extracted from `result.content?.[0]?.text`, `none` when missing), or a
rejection of the race (timeout / network failure). -/
inductive DescOutcome where
  | response (status : Nat) (extractedText : Option String)
  | raceRejected (e : JsErr)
deriving DecidableEq

def descTimeoutMessage : String := "Anthropic API call timed out after 30 seconds"

/-- The try block: `response.ok` is status 200-299. -/
def descTry (o : DescOutcome) : Except Thrown String :=
  match o with
  | .raceRejected e => .error (.js e)
  | .response status text =>
    if 200 ≤ status ∧ status ≤ 299 then
      match text with
      | some t => .ok t
      | none => .error (.trpc ⟨.INTERNAL_SERVER_ERROR, "Invalid response from AI service"⟩)
    else
      if status = 401 then
        .error (.trpc ⟨.UNAUTHORIZED, "Authentication failed with the AI service"⟩)
      else if status = 402 then
        .error (.trpc ⟨.FORBIDDEN, "AI service requires payment. Please check your account status."⟩)
      else if status = 429 then
        .error (.trpc ⟨.TOO_MANY_REQUESTS, "Rate limit exceeded for the AI service. Please try again later."⟩)
      else if 500 ≤ status then
        .error (.trpc ⟨.INTERNAL_SERVER_ERROR, "The AI service is currently experiencing issues. Please try again later."⟩)
      else
        .error (.trpc ⟨.INTERNAL_SERVER_ERROR, "AI service error: " ++ toString status⟩)

/-- The catch block, in source order: timeout check first (on
`error.message`, even for rethrown `TRPCError`s), then network errno,
then `TRPCError` rethrow, then the generic wrap. -/
def descCatch (t : Thrown) : TRPCErr :=
  if stringIncludes t.message "timed out" then
    ⟨.TIMEOUT, "AI service request timed out. Please try again later."⟩
  else if t.errnoIs "ECONNREFUSED" = true ∨ t.errnoIs "ENOTFOUND" = true ∨
      stringIncludes t.message "network" then
    ⟨.INTERNAL_SERVER_ERROR, "Could not connect to AI service. Please check your internet connection and try again."⟩
  else
    match t with
    | .trpc e => e
    | .js e => ⟨.INTERNAL_SERVER_ERROR, e.message⟩

def generateAvatarDescription (o : DescOutcome) : Except TRPCErr String :=
  match descTry o with
  | .ok s => .ok s
  | .error t => .error (descCatch t)

/-! ## zod input boundaries -/

/-- `z.string()` applied to a field value. -/
def zodString : JSVal → Except String String
  | .str s => .ok s
  | _ => .error "Expected string"

/-- `z.string().min(n, msg)`. -/
def zodStringMin (n : Nat) (msg : String) (v : JSVal) : Except String String :=
  match zodString v with
  | .ok s => if n ≤ s.length then .ok s else .error msg
  | .error e => .error e

/-- generateAvatarImage's input schema for `prompt` is plain
`z.string()` (generateAvatarImage.ts:9). -/
def imagePromptParse (v : JSVal) : Except String String := zodString v

/-- generateAvatarDescription's `description` field:
`z.string().min(1, "Description is required")`. -/
def descDescriptionParse (v : JSVal) : Except String String :=
  zodStringMin 1 "Description is required" v

/-- tRPC rejects the call with a BAD_REQUEST validation error when the
input schema fails; otherwise the mutation body runs. -/
def generateAvatarImageProc (rawPrompt : JSVal) (tokenConfigured : Bool)
    (o : ImgOutcome) : Except TRPCErr String :=
  match imagePromptParse rawPrompt with
  | .error e => .error ⟨.BAD_REQUEST, e⟩
  | .ok _ => generateAvatarImage tokenConfigured o

/-! ## AvatarImage display state machine (AvatarImage.tsx)

Event-level model of the component for one fixed, validated URL.  The
state fields mirror the component's hooks (`isImageLoaded`, `hasError`,
`retryCount`, `loadingTimeout`, `useFallbackImg`, the
`errorReportedRef` guard), plus `pendingPreloads`: the number of
launched, not-yet-settled off-screen preload probes (the preload
effect has no cleanup, so a probe stays in flight across re-renders
and its `catch` increments the shared retry counter unconditionally).

Events over-approximate the schedulings of the browser event loop:

* `renderLoadFail` — the visible img/Image `onError` (`handleImageError`);
* `loadSuccess` — `onLoad` (`handleImageLoad`);
* `timeoutFire` — the loading-timeout timer callback;
* `preloadStart` — the preload effect body running past its guard
  (`!normalizedUrl || isImageLoaded || hasError || retryCount >= maxRetries`);
* `preloadFail` / `preloadDone` — a pending probe settling; the `catch`
  of a failed probe runs `setRetryCount(prev => prev + 1)` with no
  further guard. -/

def maxRetries : Nat := 2

structure ImgState where
  isImageLoaded : Bool
  hasError : Bool
  retryCount : Nat
  loadingTimeout : Bool
  useFallbackImg : Bool
  errorReported : Bool
  pendingPreloads : Nat
deriving DecidableEq

def initialImgState : ImgState :=
  ⟨false, false, 0, false, false, false, 0⟩

/-- `reportError` (AvatarImage.tsx): report to the parent only when
the per-URL guard flag is unset; returns the number of `onError`
callbacks invoked. -/
def reportErrorStep (s : ImgState) : ImgState × Nat :=
  if s.errorReported then (s, 0)
  else ({ s with errorReported := true }, 1)

inductive ImgEvent where
  | loadSuccess
  | renderLoadFail
  | timeoutFire
  | preloadStart
  | preloadFail
  | preloadDone
deriving DecidableEq

def stepE (s : ImgState) (e : ImgEvent) : ImgState × Nat :=
  match e with
  | .loadSuccess =>
    ({ s with isImageLoaded := true, hasError := false, loadingTimeout := false }, 0)
  | .renderLoadFail =>
    if s.retryCount < maxRetries then
      ({ s with retryCount := s.retryCount + 1,
                useFallbackImg := s.useFallbackImg || decide (s.retryCount = 0) }, 0)
    else
      reportErrorStep { s with hasError := true }
  | .timeoutFire =>
    if s.isImageLoaded = false ∧ s.hasError = false then
      reportErrorStep { s with loadingTimeout := true, useFallbackImg := true }
    else (s, 0)
  | .preloadStart =>
    if s.isImageLoaded = false ∧ s.hasError = false ∧ s.retryCount < maxRetries then
      ({ s with pendingPreloads := s.pendingPreloads + 1 }, 0)
    else (s, 0)
  | .preloadFail =>
    if 0 < s.pendingPreloads then
      ({ s with pendingPreloads := s.pendingPreloads - 1, retryCount := s.retryCount + 1 }, 0)
    else (s, 0)
  | .preloadDone =>
    if 0 < s.pendingPreloads then
      ({ s with pendingPreloads := s.pendingPreloads - 1 }, 0)
    else (s, 0)

def runE (s : ImgState) : List ImgEvent → ImgState × Nat
  | [] => (s, 0)
  | e :: t => ((runE (stepE s e).1 t).1, (stepE s e).2 + (runE (stepE s e).1 t).2)

/-- URL change: the `errorReportedRef` reset effect plus the state
reset block of the validate effect.  In-flight preload probes are not
aborted. -/
def urlChangeReset (s : ImgState) : ImgState :=
  ⟨false, false, 0, false, false, false, s.pendingPreloads⟩

def countPreloadFails : List ImgEvent → Nat
  | [] => 0
  | .preloadFail :: t => countPreloadFails t + 1
  | _ :: t => countPreloadFails t

/-! ## Invariants of the display state machine -/

theorem stepE_report {s : ImgState} {e : ImgEvent}
    (hinv : s.hasError = true → s.errorReported = true) :
    ((stepE s e).1.hasError = true → (stepE s e).1.errorReported = true) ∧
    (s.errorReported = true → (stepE s e).2 = 0 ∧ (stepE s e).1.errorReported = true) ∧
    (s.errorReported = false →
      ((stepE s e).1.errorReported = true ∧ (stepE s e).2 = 1) ∨
      ((stepE s e).1.errorReported = false ∧ (stepE s e).2 = 0)) := by
  cases e <;> simp only [stepE, reportErrorStep] <;> (try split_ifs) <;> simp_all

theorem runE_report {l : List ImgEvent} : ∀ {s : ImgState},
    (s.hasError = true → s.errorReported = true) →
    ((runE s l).1.hasError = true → (runE s l).1.errorReported = true) ∧
    (s.errorReported = true → (runE s l).2 = 0 ∧ (runE s l).1.errorReported = true) ∧
    (s.errorReported = false →
      ((runE s l).1.errorReported = true ∧ (runE s l).2 = 1) ∨
      ((runE s l).1.errorReported = false ∧ (runE s l).2 = 0)) := by
  induction l with
  | nil =>
    intro s h
    exact ⟨h, fun h1 => ⟨rfl, h1⟩, fun h0 => Or.inr ⟨h0, rfl⟩⟩
  | cons e t ih =>
    intro s hinv
    obtain ⟨h1, h2, h3⟩ := stepE_report (s := s) (e := e) hinv
    obtain ⟨g1, g2, g3⟩ := ih (s := (stepE s e).1) h1
    simp only [runE]
    refine ⟨g1, ?_, ?_⟩
    · intro hrep
      obtain ⟨hn, hrep1⟩ := h2 hrep
      obtain ⟨hm, hrep2⟩ := g2 hrep1
      exact ⟨by omega, hrep2⟩
    · intro hrep
      rcases h3 hrep with ⟨hrep1, hn⟩ | ⟨hrep1, hn⟩
      · obtain ⟨hm, hrep2⟩ := g2 hrep1
        exact Or.inl ⟨hrep2, by omega⟩
      · rcases g3 hrep1 with ⟨hrep2, hm⟩ | ⟨hrep2, hm⟩
        · exact Or.inl ⟨hrep2, by omega⟩
        · exact Or.inr ⟨hrep2, by omega⟩

theorem stepE_retry_bound {s : ImgState} {e : ImgEvent} :
    (stepE s e).1.retryCount ≤
      (if e = .preloadFail then s.retryCount + 1 else max s.retryCount maxRetries) := by
  cases e <;> simp only [stepE, reportErrorStep] <;> split_ifs <;>
    simp_all [maxRetries] <;> try omega

theorem runE_retry_bound {l : List ImgEvent} : ∀ {s : ImgState} {b : Nat},
    s.retryCount ≤ b → maxRetries ≤ b →
    (runE s l).1.retryCount ≤ b + countPreloadFails l := by
  induction l with
  | nil =>
    intro s b hs _
    simpa [runE, countPreloadFails] using hs
  | cons e t ih =>
    intro s b hs hb
    have hstep := stepE_retry_bound (s := s) (e := e)
    simp only [runE]
    by_cases he : e = ImgEvent.preloadFail
    · subst he
      rw [if_pos rfl] at hstep
      have hrec := ih (s := (stepE s ImgEvent.preloadFail).1) (b := b + 1)
        (by omega) (by omega)
      have hc : countPreloadFails (ImgEvent.preloadFail :: t) = countPreloadFails t + 1 := rfl
      rw [hc]
      omega
    · rw [if_neg he] at hstep
      have hle : (stepE s e).1.retryCount ≤ b := le_trans hstep (max_le hs hb)
      have hrec := ih (s := (stepE s e).1) (b := b) hle hb
      have hc : countPreloadFails (e :: t) = countPreloadFails t := by
        cases e
        case preloadFail => exact absurd rfl he
        all_goals rfl
      rw [hc]
      omega

/-! ## Characterization of the loadImageWithRetry attempt loop -/

theorem backoffDelays_succ (d n : Nat) :
    backoffDelays d (n + 1) = d :: backoffDelays (d * 2) n := by
  unfold backoffDelays
  rw [List.range_succ_eq_map, List.map_cons, List.map_map]
  congr 1
  · simp
  · apply List.map_congr_left
    intro i _
    simp only [Function.comp_apply, pow_succ]
    ring

theorem attemptLoad_all_fail {outcome : Nat → Bool} :
    ∀ (left attempt delay : Nat),
    (∀ i, attempt ≤ i → i ≤ attempt + left → outcome i = false) →
    attemptLoad outcome attempt delay left =
      (false, attempt + left + 1, backoffDelays delay left) := by
  intro left
  induction left with
  | zero =>
    intro attempt delay h
    have h0 : outcome attempt = false := h attempt le_rfl (by omega)
    simp [attemptLoad, h0, backoffDelays]
  | succ n ih =>
    intro attempt delay h
    have h0 : outcome attempt = false := h attempt le_rfl (by omega)
    have hrec := ih (attempt + 1) (delay * 2)
      (fun i h1 h2 => h i (by omega) (by omega))
    simp only [attemptLoad, h0, Bool.false_eq_true, if_false, hrec,
      backoffDelays_succ]
    have harith : attempt + 1 + n + 1 = attempt + (n + 1) + 1 := by omega
    rw [harith]

theorem attemptLoad_first_success {outcome : Nat → Bool} :
    ∀ (k left attempt delay : Nat), k ≤ left →
    (∀ i, attempt ≤ i → i < attempt + k → outcome i = false) →
    outcome (attempt + k) = true →
    attemptLoad outcome attempt delay left =
      (true, attempt + k + 1, backoffDelays delay k) := by
  intro k
  induction k with
  | zero =>
    intro left attempt delay _ _ hsucc
    have h0 : outcome attempt = true := by simpa using hsucc
    cases left <;> simp [attemptLoad, h0, backoffDelays]
  | succ m ih =>
    intro left attempt delay hk hfail hsucc
    cases left with
    | zero => omega
    | succ l =>
      have h0 : outcome attempt = false := hfail attempt le_rfl (by omega)
      have hsucc2 : outcome (attempt + 1 + m) = true := by
        have harith : attempt + 1 + m = attempt + (m + 1) := by omega
        rw [harith]
        exact hsucc
      have hrec := ih l (attempt + 1) (delay * 2) (by omega)
        (fun i h1 h2 => hfail i (by omega) (by omega)) hsucc2
      simp only [attemptLoad, h0, Bool.false_eq_true, if_false, hrec,
        backoffDelays_succ]
      have harith : attempt + 1 + m + 1 = attempt + (m + 1) + 1 := by omega
      rw [harith]

/-! ## Evaluation lemmas for the branch structure of the URL utilities -/

theorem validateImageUrl_parse_ok {s : String} {r : URLRec} (hempty : s ≠ "")
    (hp : parseURL s.data = some r) (hproto : r.protocol = "https:") :
    validateImageUrl (some s) = true := by
  simp [validateImageUrl, hempty, hp, hproto]

theorem validateImageUrl_parse_bad_proto {s : String} {r : URLRec} (hempty : s ≠ "")
    (hp : parseURL s.data = some r) (hproto : r.protocol ≠ "https:") :
    validateImageUrl (some s) = false := by
  simp [validateImageUrl, hempty, hp, hproto]

theorem validateImageUrl_parse_fail {s : String} (hempty : s ≠ "")
    (hp : parseURL s.data = none) : validateImageUrl (some s) = false := by
  simp [validateImageUrl, hempty, hp]

theorem isLikelyTemporaryUrl_parse_ok {s : String} {r : URLRec} (hempty : s ≠ "")
    (hp : parseURL s.data = some r) :
    isLikelyTemporaryUrl (some s) = stringIncludes r.hostname replicateDomain := by
  simp [isLikelyTemporaryUrl, hempty, hp]

theorem isLikelyTemporaryUrl_parse_fail {s : String} (hempty : s ≠ "")
    (hp : parseURL s.data = none) : isLikelyTemporaryUrl (some s) = false := by
  simp [isLikelyTemporaryUrl, hempty, hp]

theorem parseURL_empty : parseURL ("" : String).data = none := rfl

/-! ## Claim theorems -/

/-- Claim C7: normalizeImageUrl is idempotent: for every URL string
(including null/undefined and strings that fail to parse),
normalizing twice gives the same result as normalizing once. -/
theorem c7_normalize_idempotent (u : Option String) :
    normalizeImageUrl (normalizeImageUrl u) = normalizeImageUrl u := by
  cases u with
  | none => rfl
  | some s =>
    by_cases hempty : s = ""
    · subst hempty; rfl
    · cases hp : parseURL s.data with
      | none =>
        rw [normalizeImageUrl_some_fail hempty hp,
          normalizeImageUrl_some_fail hempty hp]
      | some r =>
        rw [normalizeImageUrl_some_parse hempty hp]
        have hwf := setProtocolHttps_wf (parseURL_wf hp)
        have hne : (setProtocolHttps r).serialize ≠ "" := by
          unfold URLRec.serialize
          rw [Ne, string_mk_eq_empty_iff]
          exact serializeL_ne_nil hwf
        have hparse2 : parseURL ((setProtocolHttps r).serialize).data =
            some (setProtocolHttps r) := parse_serialize hwf
        rw [normalizeImageUrl_some_parse hne hparse2, setProtocolHttps_idem]

/-- Claim C8: validateImageUrl returns false for empty, unparsable, or
non-HTTPS input, and true otherwise — in particular a well-formed
HTTPS URL on an unrecognized host still validates true. -/
theorem c8_validate_image_url (u : Option String) :
    (validateImageUrl u = true ↔
      ∃ s r, u = some s ∧ parseURL s.data = some r ∧ r.protocol = "https:") ∧
    validateImageUrl (some "https://cdn.example.org/a.png") = true := by
  refine ⟨?_, by decide⟩
  constructor
  · intro h
    cases u with
    | none => simp [validateImageUrl] at h
    | some s =>
      by_cases hempty : s = ""
      · subst hempty
        rw [show validateImageUrl (some "") = false from rfl] at h
        exact absurd h (by simp)
      · cases hp : parseURL s.data with
        | none =>
          rw [validateImageUrl_parse_fail hempty hp] at h
          exact absurd h (by simp)
        | some r =>
          by_cases hproto : r.protocol = "https:"
          · exact ⟨s, r, rfl, hp, hproto⟩
          · rw [validateImageUrl_parse_bad_proto hempty hp hproto] at h
            exact absurd h (by simp)
  · rintro ⟨s, r, rfl, hp, hproto⟩
    have hempty : s ≠ "" := by
      intro he
      subst he
      rw [parseURL_empty] at hp
      exact absurd hp (by simp)
    exact validateImageUrl_parse_ok hempty hp hproto

/-- Claim C5: isLikelyTemporaryUrl is true exactly when the input
parses as a URL whose hostname contains the expiring delivery domain
replicate.delivery, and the display state machine schedules a
20-second load timeout for temporary URLs and 15 seconds otherwise. -/
theorem c5_temporary_url_classifier :
    (∀ u : Option String, isLikelyTemporaryUrl u = true ↔
      ∃ s r, u = some s ∧ parseURL s.data = some r ∧
        stringIncludes r.hostname replicateDomain = true) ∧
    (∀ s : String, isLikelyTemporaryUrl (some s) = true → timeoutDuration s = 20000) ∧
    (∀ s : String, isLikelyTemporaryUrl (some s) = false → timeoutDuration s = 15000) ∧
    timeoutDuration "https://fake.replicate.delivery/abc.png" = 20000 ∧
    timeoutDuration "https://cdn.example.org/a.png" = 15000 := by
  refine ⟨?_, ?_, ?_, by decide, by decide⟩
  · intro u
    constructor
    · intro h
      cases u with
      | none => simp [isLikelyTemporaryUrl] at h
      | some s =>
        by_cases hempty : s = ""
        · subst hempty
          rw [show isLikelyTemporaryUrl (some "") = false from rfl] at h
          exact absurd h (by simp)
        · cases hp : parseURL s.data with
          | none =>
            rw [isLikelyTemporaryUrl_parse_fail hempty hp] at h
            exact absurd h (by simp)
          | some r =>
            rw [isLikelyTemporaryUrl_parse_ok hempty hp] at h
            exact ⟨s, r, rfl, hp, h⟩
    · rintro ⟨s, r, rfl, hp, hinc⟩
      have hempty : s ≠ "" := by
        intro he
        subst he
        rw [parseURL_empty] at hp
        exact absurd hp (by simp)
      rw [isLikelyTemporaryUrl_parse_ok hempty hp, hinc]
  · intro s h
    rw [timeoutDuration, if_pos h]
  · intro s h
    rw [timeoutDuration, if_neg (by simp [h])]

/-- Witness for C5 at the spec's scenario URL. -/
theorem c5_temporary_url_classifier_witness :
    isLikelyTemporaryUrl (some "https://fake.replicate.delivery/abc.png") = true ∧
    timeoutDuration "https://fake.replicate.delivery/abc.png" = 20000 :=
  ⟨by decide,
    c5_temporary_url_classifier.2.1 "https://fake.replicate.delivery/abc.png" (by decide)⟩

/-- Claim C9 counterexample: the claim says every string that fails to
parse — "e.g. ... or the empty string" — is returned unchanged, but the
code's falsy guard returns null for the empty string; and it says every
parsable string is re-serialized with the scheme forced to HTTPS, but a
parsable non-special scheme (mailto:) is left unchanged by the
protocol setter. -/
theorem c9_counterexample :
    normalizeImageUrl (some "") = none ∧
    normalizeImageUrl (some "mailto:user@example.com") =
      some "mailto:user@example.com" ∧
    parseURL ("mailto:user@example.com").data =
      some (URLRec.opaqueUrl "mailto".data "user@example.com".data) := by
  exact ⟨rfl, by decide, by decide⟩

/-- Claim C9 (amended): normalizeImageUrl never throws (it is a total
function); it returns null for empty (falsy) input, returns every
non-empty unparsable string unchanged, and re-serializes every
parsable string after the protocol assignment, which forces the
scheme to HTTPS exactly when the original scheme is special and leaves
a non-special scheme unchanged. -/
theorem c9_normalize_on_failure (s : String) (r : URLRec) :
    normalizeImageUrl none = none ∧
    normalizeImageUrl (some "") = none ∧
    (s ≠ "" → parseURL s.data = none → normalizeImageUrl (some s) = some s) ∧
    (parseURL s.data = some r →
      normalizeImageUrl (some s) = some (setProtocolHttps r).serialize ∧
      (isSpecialScheme r.schemeL = true → (setProtocolHttps r).schemeL = "https".data) ∧
      (isSpecialScheme r.schemeL = false → setProtocolHttps r = r)) := by
  refine ⟨rfl, rfl, ?_, ?_⟩
  · intro hempty hp
    exact normalizeImageUrl_some_fail hempty hp
  · intro hp
    have hempty : s ≠ "" := by
      intro he
      subst he
      rw [show parseURL ("" : String).data = none from rfl] at hp
      exact absurd hp (by simp)
    refine ⟨normalizeImageUrl_some_parse hempty hp, ?_, ?_⟩
    · intro hspec
      cases r with
      | hostUrl scheme host suffix =>
        simp only [URLRec.schemeL] at hspec
        simp [setProtocolHttps, hspec, URLRec.schemeL]
      | opaqueUrl scheme rest =>
        obtain ⟨-, hnsp, -⟩ := parseURL_wf hp
        simp only [URLRec.schemeL] at hspec
        rw [hspec] at hnsp
        exact absurd hnsp (by simp)
    · intro hspec
      cases r with
      | hostUrl scheme host suffix =>
        simp only [URLRec.schemeL] at hspec
        simp [setProtocolHttps, hspec]
      | opaqueUrl scheme rest => rfl

/-- Witness for the amended C9. -/
theorem c9_normalize_on_failure_witness :
    ("not a url" ≠ "" ∧ parseURL ("not a url" : String).data = none) ∧
    normalizeImageUrl (some "not a url") = some "not a url" :=
  ⟨⟨by decide, by decide⟩,
    (c9_normalize_on_failure "not a url" (URLRec.opaqueUrl [] [])).2.2.1
      (by decide) (by decide)⟩

/-- A Replicate output value that is a non-empty array. -/
def isNonemptyArr : JSVal → Bool
  | .arr (_ :: _) => true
  | _ => false

theorem handleReplicateOutput_not_arr {v : JSVal} (h : isNonemptyArr v = false) :
    handleReplicateOutput v = .error ⟨.INTERNAL_SERVER_ERROR, emptyOutputMsg⟩ := by
  cases v
  case arr xs =>
    cases xs
    case nil => rfl
    case cons x t => simp [isNonemptyArr] at h
  all_goals rfl

/-- Claim C1: when the Replicate response output is empty or not an
array, generateAvatarImage returns the typed output-shape error (the
thrown TRPCError is rethrown unchanged by the catch block) instead of
indexing; and for a non-empty array the result depends only on the
first element, which is the only one read. -/
theorem c1_output_shape_guard (v : JSVal) (h : isNonemptyArr v = false) :
    generateAvatarImage true (.output v) =
      .error ⟨.INTERNAL_SERVER_ERROR, emptyOutputMsg⟩ ∧
    ∀ x xs ys, generateAvatarImage true (.output (.arr (x :: xs))) =
      generateAvatarImage true (.output (.arr (x :: ys))) := by
  constructor
  · simp [generateAvatarImage, imgTry, imgCatch, handleReplicateOutput_not_arr h]
  · intro x xs ys
    rfl

/-- Witness for C1 on a non-array output and on the empty array. -/
theorem c1_output_shape_guard_witness :
    isNonemptyArr (JSVal.arr []) = false ∧
    generateAvatarImage true (.output (JSVal.arr [])) =
      .error ⟨.INTERNAL_SERVER_ERROR, emptyOutputMsg⟩ :=
  ⟨rfl, (c1_output_shape_guard (JSVal.arr []) rfl).1⟩

/-- An event never clears the per-URL reported flag: only the URL
change effect does. -/
theorem stepE_reported_mono (s : ImgState) (e : ImgEvent)
    (h : s.errorReported = true) : (stepE s e).1.errorReported = true := by
  cases e <;> simp only [stepE, reportErrorStep] <;> (try split_ifs) <;> simp_all

/-- Claim C2: from a fresh per-URL state, any sequence of load
failures, timeout firings, load successes and preload events reports
the error upward at most once; when the machine ends in the errored
state the error has been reported exactly once; no event resets the
guard flag, and the URL-change reset clears it. -/
theorem c2_error_reported_once (evs : List ImgEvent) :
    (runE initialImgState evs).2 ≤ 1 ∧
    ((runE initialImgState evs).1.hasError = true → (runE initialImgState evs).2 = 1) ∧
    (∀ s e, s.errorReported = true → (stepE s e).1.errorReported = true) ∧
    (∀ s, (urlChangeReset s).errorReported = false) := by
  obtain ⟨g1, -, g3⟩ := runE_report (l := evs) (s := initialImgState)
    (by intro h; exact absurd h (by decide))
  have h0 : initialImgState.errorReported = false := rfl
  refine ⟨?_, ?_, stepE_reported_mono, fun s => rfl⟩
  · rcases g3 h0 with ⟨-, hn⟩ | ⟨-, hn⟩ <;> omega
  · intro herr
    rcases g3 h0 with ⟨-, hn⟩ | ⟨hrep, -⟩
    · exact hn
    · exact absurd (g1 herr) (by simp [hrep])

/-- Witness for C2: the spec scenario — a preload failure then two
render-time failures exhaust the cap of 2; the state is errored and
exactly one report went up. -/
theorem c2_error_reported_once_witness :
    (runE initialImgState
      [.preloadStart, .preloadFail, .renderLoadFail, .renderLoadFail]).1.hasError = true ∧
    (runE initialImgState
      [.preloadStart, .preloadFail, .renderLoadFail, .renderLoadFail]).2 = 1 :=
  ⟨by decide,
    (c2_error_reported_once
      [.preloadStart, .preloadFail, .renderLoadFail, .renderLoadFail]).2.1 (by decide)⟩

/-- Claim C3 counterexample: the retry counter can exceed maxRetries
= 2.  A preload probe launched at retryCount 0 is still in flight
while two render-time failures raise the counter to the cap; the
probe's catch then increments unconditionally, reaching 3. -/
theorem c3_retry_cap_counterexample :
    (runE initialImgState
      [.preloadStart, .renderLoadFail, .renderLoadFail, .preloadFail]).1.retryCount = 3 ∧
    ¬ ((runE initialImgState
      [.preloadStart, .renderLoadFail, .renderLoadFail, .preloadFail]).1.retryCount ≤ maxRetries) := by
  decide

/-- Claim C3 (amended): the shared retry counter stays at most
maxRetries plus the number of completed preload-probe failures; in
particular render-time failures alone never push it past the cap, but
each preload failure can add one beyond it. -/
theorem c3_retry_bound (evs : List ImgEvent) :
    (runE initialImgState evs).1.retryCount ≤ maxRetries + countPreloadFails evs ∧
    (countPreloadFails evs = 0 →
      (runE initialImgState evs).1.retryCount ≤ maxRetries) := by
  have h := runE_retry_bound (l := evs) (s := initialImgState) (b := maxRetries)
    (by decide) le_rfl
  exact ⟨h, fun hc => by rw [hc] at h; simpa using h⟩

/-- Witness for the amended C3. -/
theorem c3_retry_bound_witness :
    countPreloadFails [ImgEvent.renderLoadFail, ImgEvent.renderLoadFail,
      ImgEvent.renderLoadFail] = 0 ∧
    (runE initialImgState [.renderLoadFail, .renderLoadFail,
      .renderLoadFail]).1.retryCount ≤ maxRetries :=
  ⟨rfl,
    (c3_retry_bound [.renderLoadFail, .renderLoadFail, .renderLoadFail]).2 rfl⟩

/-- Claim C4: both remote-call wrappers translate failures into the
fixed taxonomy — 401 to the auth kind, 402 to the payment-required
kind, 429 to rate-limited, any status of at least 500 to the
upstream-unavailable kind — and the fixed-duration timeout rejection
(30 s for description generation, 60 s for image generation) is caught
and returned as a TIMEOUT-kind error rather than escaping. -/
theorem c4_error_taxonomy (s : Nat) (m : String) (hs : 500 ≤ s)
    (hm1 : stringIncludes m "timed out" = false)
    (hm2 : stringIncludes m "network" = false) :
    errCode (generateAvatarDescription (.response 401 none)) = some .UNAUTHORIZED ∧
    errCode (generateAvatarDescription (.response 402 none)) = some .FORBIDDEN ∧
    errMessage (generateAvatarDescription (.response 402 none)) =
      some "AI service requires payment. Please check your account status." ∧
    errCode (generateAvatarDescription (.response 429 none)) = some .TOO_MANY_REQUESTS ∧
    errCode (generateAvatarDescription (.response s none)) = some .INTERNAL_SERVER_ERROR ∧
    errMessage (generateAvatarDescription (.response s none)) =
      some "The AI service is currently experiencing issues. Please try again later." ∧
    errCode (generateAvatarDescription (.raceRejected ⟨descTimeoutMessage, none, none⟩)) =
      some .TIMEOUT ∧
    errCode (generateAvatarImage true (.raceRejected ⟨imgTimeoutMessage, none, none⟩)) =
      some .TIMEOUT ∧
    errCode (generateAvatarImage true (.raceRejected ⟨m, none, some 401⟩)) =
      some .UNAUTHORIZED ∧
    errCode (generateAvatarImage true (.raceRejected ⟨m, none, some 402⟩)) =
      some .FORBIDDEN ∧
    errMessage (generateAvatarImage true (.raceRejected ⟨m, none, some 402⟩)) =
      some "Image generation service requires payment. Please check your account status." ∧
    errCode (generateAvatarImage true (.raceRejected ⟨m, none, some 429⟩)) =
      some .TOO_MANY_REQUESTS ∧
    errCode (generateAvatarImage true (.raceRejected ⟨m, none, some s⟩)) =
      some .INTERNAL_SERVER_ERROR ∧
    descTimeoutMs = 30000 ∧ imgTimeoutMs = 60000 := by
  have e0 : s ≠ 0 := by omega
  have e1 : s ≠ 401 := by omega
  have e2 : s ≠ 402 := by omega
  have e3 : s ≠ 429 := by omega
  have e4 : ¬ (200 ≤ s ∧ s ≤ 299) := by omega
  have hdesc : generateAvatarDescription (.response s none) =
      .error ⟨.INTERNAL_SERVER_ERROR,
        "The AI service is currently experiencing issues. Please try again later."⟩ := by
    simp only [generateAvatarDescription, descTry, if_neg e4, if_neg e1, if_neg e2,
      if_neg e3, if_pos hs]
    rfl
  have himg : generateAvatarImage true (.raceRejected ⟨m, none, some s⟩) =
      .error ⟨.INTERNAL_SERVER_ERROR,
        "Image generation service is currently experiencing issues. Please try again later."⟩ := by
    simp [generateAvatarImage, imgTry, imgCatch, hm1, hm2, e0, e1, e2, e3, hs]
  have h401 : generateAvatarImage true (.raceRejected ⟨m, none, some 401⟩) =
      .error ⟨.UNAUTHORIZED,
        "Failed to authenticate with image generation service. Please check your API credentials."⟩ := by
    simp [generateAvatarImage, imgTry, imgCatch, hm1, hm2]
  have h402 : generateAvatarImage true (.raceRejected ⟨m, none, some 402⟩) =
      .error ⟨.FORBIDDEN,
        "Image generation service requires payment. Please check your account status."⟩ := by
    simp [generateAvatarImage, imgTry, imgCatch, hm1, hm2]
  have h429 : generateAvatarImage true (.raceRejected ⟨m, none, some 429⟩) =
      .error ⟨.TOO_MANY_REQUESTS,
        "Image generation rate limit exceeded. Please try again in a few minutes."⟩ := by
    simp [generateAvatarImage, imgTry, imgCatch, hm1, hm2]
  refine ⟨by decide, by decide, by decide, by decide, ?_, ?_, by decide, by decide,
    ?_, ?_, ?_, ?_, ?_, rfl, rfl⟩
  · rw [hdesc]; rfl
  · rw [hdesc]; rfl
  · rw [h401]; rfl
  · rw [h402]; rfl
  · rw [h402]; rfl
  · rw [h429]; rfl
  · rw [himg]; rfl

/-- Witness for C4 at status 503 with a plain error message. -/
theorem c4_error_taxonomy_witness :
    (500 ≤ 503 ∧ stringIncludes "Service Unavailable" "timed out" = false ∧
      stringIncludes "Service Unavailable" "network" = false) ∧
    errCode (generateAvatarDescription (.response 503 none)) =
      some .INTERNAL_SERVER_ERROR :=
  ⟨⟨by decide, by decide, by decide⟩,
    (c4_error_taxonomy 503 "Service Unavailable" (by decide) (by decide)
      (by decide)).2.2.2.2.1⟩

/-- Claim C6: loadImageWithRetry resolves at the first attempt whose
underlying image load succeeds, rejects only after all maxRetries+1
attempts fail, and the waits before successive retries double,
starting at initialDelay. -/
theorem c6_load_retry_backoff (outcome : Nat → Bool) (maxR initialDelay : Nat) :
    ((∀ i, i ≤ maxR → outcome i = false) →
      loadImageWithRetry outcome maxR initialDelay =
        (false, maxR + 1, backoffDelays initialDelay maxR)) ∧
    (∀ k, k ≤ maxR → (∀ i, i < k → outcome i = false) → outcome k = true →
      loadImageWithRetry outcome maxR initialDelay =
        (true, k + 1, backoffDelays initialDelay k)) := by
  constructor
  · intro h
    have hall := attemptLoad_all_fail maxR 0 initialDelay
      (fun i h1 h2 => h i (by omega))
    simpa [loadImageWithRetry] using hall
  · intro k hk hfail hsucc
    have hfirst := attemptLoad_first_success k maxR 0 initialDelay hk
      (fun i h1 h2 => hfail i (by omega)) (by simpa using hsucc)
    simpa [loadImageWithRetry] using hfirst

/-- Witness for C6: success on the second attempt after one failure,
with one backoff delay of the initial 1000 ms; and total rejection
after maxRetries+1 = 3 attempts with doubling delays. -/
theorem c6_load_retry_backoff_witness :
    loadImageWithRetry (fun i => decide (i = 1)) 3 1000 = (true, 2, [1000]) ∧
    loadImageWithRetry (fun _ => false) 2 500 = (false, 3, [500, 1000]) := by
  constructor
  · have h := (c6_load_retry_backoff (fun i => decide (i = 1)) 3 1000).2 1
      (by omega) (fun i hi => by
        have h0 : i = 0 := by omega
        subst h0
        rfl) (by decide)
    rw [h]
    rfl
  · have h := (c6_load_retry_backoff (fun _ => false) 2 500).1 (fun i _ => rfl)
    rw [h]
    rfl

/-- Claim C10 counterexample: the input schema of generateAvatarImage
is plain z.string(); the empty prompt passes the boundary (no
validation error) and the mutation body runs. -/
theorem c10_empty_prompt_counterexample :
    imagePromptParse (JSVal.str "") = Except.ok "" ∧
    generateAvatarImageProc (JSVal.str "") true
        (.raceRejected ⟨imgTimeoutMessage, none, none⟩) =
      generateAvatarImage true (.raceRejected ⟨imgTimeoutMessage, none, none⟩) :=
  ⟨rfl, rfl⟩

/-- Claim C10 (amended): the input boundary of generateAvatarImage
requires prompt to be a string but imposes no non-emptiness check —
every string, including the empty one, passes and the body proceeds to
the image-generation call; non-strings are rejected.  By contrast
generateAvatarDescription's fields require length at least 1. -/
theorem c10_prompt_boundary :
    (∀ s : String, imagePromptParse (JSVal.str s) = Except.ok s) ∧
    (∀ (s : String) (token : Bool) (o : ImgOutcome),
      generateAvatarImageProc (JSVal.str s) token o = generateAvatarImage token o) ∧
    descDescriptionParse (JSVal.str "") = Except.error "Description is required" ∧
    imagePromptParse JSVal.nullv = Except.error "Expected string" :=
  ⟨fun _ => rfl, fun _ _ _ => rfl, rfl, rfl⟩

end Avatar
